import Mathlib

/-!
Shallow embedding of `powerball/analyzer.py`.

The SQLite store is modelled in memory: the `dates` table and the `draws`
table are lists of rows, together with the two `AUTOINCREMENT` counters.
The operations `add_draw`, `get_max_draw_sequence_num`,
`get_total_draws_in_db` and `analyze_specific_set_occurrence` are
translated statement by statement from the Python source; Python
exceptions raised inside the `try` block of `add_draw` are modelled as
values of an `Except` type, and the `except` clauses as a total handler.
-/

/-- A row of the `dates` table: `id INTEGER PRIMARY KEY AUTOINCREMENT`,
`draw_date TEXT NOT NULL UNIQUE`, `is_powerball_plus INTEGER NOT NULL`,
`draw_sequence_num INTEGER UNIQUE` (nullable, hence `Option`). -/
structure DateRow where
  id : Nat
  draw_date : String
  is_powerball_plus : Int
  draw_sequence_num : Option Int
  deriving DecidableEq, Repr

/-- A row of the `draws` table: surrogate `id`, the `date_id` reference
(`INTEGER NOT NULL UNIQUE`, foreign key into `dates`), the five main
number columns and the powerball column. -/
structure DrawRow where
  id : Nat
  date_id : Nat
  main_num1 : Int
  main_num2 : Int
  main_num3 : Int
  main_num4 : Int
  main_num5 : Int
  powerball_num : Int
  deriving DecidableEq, Repr

/-- The persisted store: both tables plus the `AUTOINCREMENT` counters
(SQLite assigns ids from 1 upward, strictly increasing). -/
structure DB where
  dates : List DateRow
  draws : List DrawRow
  nextDateId : Nat
  nextDrawId : Nat
  deriving DecidableEq, Repr

/-- `create_database()`: fresh empty store with both tables created.
`CREATE TABLE IF NOT EXISTS` on an existing store is a no-op, so the
function is modelled by the initial state. -/
def create_database : DB :=
  { dates := [], draws := [], nextDateId := 1, nextDrawId := 1 }

/-- Python exceptions that the body of `add_draw` can raise. An
`integrityError` carries the constraint message produced by SQLite. -/
inductive PyExc where
  | integrityError (constraint : String)
  | typeError (msg : String)
  | indexError (msg : String)
  deriving DecidableEq, Repr

/-- The outcome `add_draw` reports to its caller (via its printed
message): a new row persisted, a benign skip, or a failure.  `failed`
records whether the error was reported through the
`except sqlite3.IntegrityError` clause (`isIntegrityError = true`) or
through the catch-all `except Exception` clause, plus the reason. -/
inductive AddDrawResult where
  | success
  | skipped
  | failed (isIntegrityError : Bool) (msg : String)
  deriving DecidableEq, Repr

/-- Does the candidate `dates` row with sequence number `seq` collide
with the existing row `r` on the `UNIQUE` column `draw_sequence_num`?
SQLite `UNIQUE` treats NULLs as pairwise distinct, so a `none` sequence
number never collides. -/
def seqCollides (seq : Option Int) (r : DateRow) : Bool :=
  match seq with
  | none => false
  | some n => decide (r.draw_sequence_num = some n)

/-- Would the `INSERT OR IGNORE INTO dates` of `add_draw` hit a
`UNIQUE` conflict (on `draw_date` or on `draw_sequence_num`)? -/
def datesConflict (db : DB) (draw_date : String) (seq : Option Int) : Bool :=
  db.dates.any fun r => decide (r.draw_date = draw_date) || seqCollides seq r

/-- The committed effect of a non-conflicting `INSERT INTO dates`. -/
def insertDateRow (db : DB) (draw_date : String) (is_pb : Int) (seq : Option Int) : DB :=
  { db with
    dates := db.dates ++
      [{ id := db.nextDateId, draw_date := draw_date,
         is_powerball_plus := is_pb, draw_sequence_num := seq }],
    nextDateId := db.nextDateId + 1 }

/-- Lines 57-65 of `add_draw` (the spec's `ensure_date`):
`INSERT OR IGNORE INTO dates (draw_date, is_powerball_plus,
draw_sequence_num) VALUES (?,?,?)` followed by `conn.commit()` and
`SELECT id FROM dates WHERE draw_date = ?`.  `INSERT OR IGNORE` drops
the row when it would violate `UNIQUE(draw_date)` or
`UNIQUE(draw_sequence_num)`.  The returned `Option Nat` is
`fetchone()` mapped to the `id` column: `none` models an empty result
set (whose `[0]` subscript raises `TypeError` in the caller). -/
def ensure_date (db : DB) (draw_date : String) (is_pb : Int) (seq : Option Int) :
    DB × Option Nat :=
  let db1 :=
    if datesConflict db draw_date seq then db else insertDateRow db draw_date is_pb seq
  (db1, (db1.dates.find? fun r => decide (r.draw_date = draw_date)).map DateRow.id)

/-- `sorted_main[0] ... sorted_main[4]`: Python index accesses on the
sorted list.  Returns the first five elements, or `none` when some
index access would raise `IndexError`. -/
def firstFive (l : List Int) : Option (Int × Int × Int × Int × Int) :=
  match l with
  | a :: b :: c :: d :: e :: _ => some (a, b, c, d, e)
  | _ => none

/-- `sorted_main[i]` as a total function: the `i`-th element of the
sorted main-number list (0 when out of range). -/
def sorted_main (mains : List Int) (i : Nat) : Int :=
  (List.insertionSort (fun a b => a ≤ b) mains).getD i 0

/-- Does some `draws` row already reference the `dates` row
`date_id` (the `UNIQUE(draws.date_id)` constraint)? -/
def hasDrawFor (db : DB) (date_id : Nat) : Bool :=
  db.draws.any fun r => decide (r.date_id = date_id)

/-- The committed effect of a non-conflicting `INSERT INTO draws`. -/
def insertDrawRow (db : DB) (date_id : Nat) (m1 m2 m3 m4 m5 pb : Int) : DB :=
  { db with
    draws := db.draws ++
      [{ id := db.nextDrawId, date_id := date_id,
         main_num1 := m1, main_num2 := m2, main_num3 := m3,
         main_num4 := m4, main_num5 := m5, powerball_num := pb }],
    nextDrawId := db.nextDrawId + 1 }

/-- Lines 67-74 of `add_draw`: index the sorted list and attempt the
`INSERT INTO draws`; `ff` is the outcome of the five index accesses. -/
def drawInsertStep (db1 : DB) (date_id : Nat)
    (ff : Option (Int × Int × Int × Int × Int)) (pb : Int) :
    Except (PyExc × DB) DB :=
  match ff with
  | none => .error (.indexError "list index out of range", db1)
  | some t =>
    if hasDrawFor db1 date_id then
      .error (.integrityError "UNIQUE constraint failed: draws.date_id", db1)
    else
      .ok (insertDrawRow db1 date_id t.1 t.2.1 t.2.2.1 t.2.2.2.1 t.2.2.2.2 pb)

/-- The `try` block of `add_draw` (lines 55-74).  On an exception the
error value carries the store as the rollback leaves it: the `dates`
insert was already committed (line 61), so only the uncommitted `draws`
insert is undone.  The three possible exceptions are the `TypeError`
from `fetchone()[0]` on an empty lookup, the `IndexError` from
`sorted_main[4]` on a short list, and the `sqlite3.IntegrityError` from
`UNIQUE(draws.date_id)`. -/
def addDrawBody (db : DB) (draw_date : String) (is_pb : Int) (seq : Option Int)
    (main_numbers : List Int) (powerball_number : Int) : Except (PyExc × DB) DB :=
  match (ensure_date db draw_date is_pb seq).2 with
  | none =>
    .error (.typeError "NoneType object is not subscriptable",
      (ensure_date db draw_date is_pb seq).1)
  | some date_id =>
    drawInsertStep (ensure_date db draw_date is_pb seq).1 date_id
      (firstFive (List.insertionSort (fun a b => a ≤ b) main_numbers))
      powerball_number

/-- The `except` clauses of `add_draw`: an `IntegrityError` whose
message is the `UNIQUE(draws.date_id)` violation is reported as a skip
(line 78); any other `IntegrityError` is reported as an error through
the same clause (line 80); every remaining exception falls into the
catch-all `except Exception` clause (line 83). -/
def handleExc (e : PyExc) : AddDrawResult :=
  match e with
  | .integrityError c =>
      if c = "UNIQUE constraint failed: draws.date_id" then .skipped
      else .failed true c
  | .typeError m => .failed false m
  | .indexError m => .failed false m

/-- `add_draw(draw_date, is_powerball_plus, draw_sequence_num,
main_numbers, powerball_number)`: runs the `try` block and maps any
exception through the `except` clauses; the connection is closed in
`finally` either way. -/
def add_draw (db : DB) (draw_date : String) (is_pb : Int) (seq : Option Int)
    (main_numbers : List Int) (powerball_number : Int) : DB × AddDrawResult :=
  match addDrawBody db draw_date is_pb seq main_numbers powerball_number with
  | .ok db2 => (db2, .success)
  | .error (e, db1) => (db1, handleExc e)

/-- SQL `MAX` over a column: `none` when there is no non-null value,
otherwise the greatest value. -/
def maxSeq : List Int → Option Int
  | [] => none
  | v :: vs =>
    match maxSeq vs with
    | none => some v
    | some m => some (max v m)

/-- `get_max_draw_sequence_num()`: `SELECT MAX(draw_sequence_num) FROM
dates`, then `max_num if max_num is not None else 0`. -/
def get_max_draw_sequence_num (db : DB) : Int :=
  (maxSeq (db.dates.filterMap DateRow.draw_sequence_num)).getD 0

/-- `get_total_draws_in_db()`: `SELECT COUNT(*) FROM draws`. -/
def get_total_draws_in_db (db : DB) : Nat :=
  db.draws.length

/-- The `WHERE` clause of the counting query: does the row carry
exactly the target main numbers and powerball number? -/
def matchesTarget (t1 t2 t3 t4 t5 tpb : Int) (r : DrawRow) : Bool :=
  decide (r.main_num1 = t1) && decide (r.main_num2 = t2) &&
  decide (r.main_num3 = t3) && decide (r.main_num4 = t4) &&
  decide (r.main_num5 = t5) && decide (r.powerball_num = tpb)

/-- The exact-match counting query of `analyze_specific_set_occurrence`
with the target made an explicit argument (the spec's
`count_exact_match`): counts `draws` rows whose five main-number
columns and powerball column equal the target fields. -/
def count_exact_match (db : DB) (t1 t2 t3 t4 t5 tpb : Int) : Nat :=
  db.draws.countP (matchesTarget t1 t2 t3 t4 t5 tpb)

/-- `TARGET_MAIN_NUMBERS = sorted([2, 18, 35, 41, 46])`. -/
def TARGET_MAIN_NUMBERS : List Int :=
  List.insertionSort (fun a b => a ≤ b) [2, 18, 35, 41, 46]

/-- `TARGET_POWERBALL = 1`. -/
def TARGET_POWERBALL : Int := 1

/-- `analyze_specific_set_occurrence()`: the counting query at the
fixed configured target. -/
def analyze_specific_set_occurrence (db : DB) : Nat :=
  count_exact_match db (TARGET_MAIN_NUMBERS.getD 0 0) (TARGET_MAIN_NUMBERS.getD 1 0)
    (TARGET_MAIN_NUMBERS.getD 2 0) (TARGET_MAIN_NUMBERS.getD 3 0)
    (TARGET_MAIN_NUMBERS.getD 4 0) TARGET_POWERBALL

/-- Well-formedness of a store state: date ids are below the counter
and pairwise distinct, calendar dates are unique, every `draws` row
references an existing `dates` row, and `date_id` is unique across
`draws` (each date has at most one result). -/
def WF (db : DB) : Prop :=
  (∀ r ∈ db.dates, r.id < db.nextDateId) ∧
  (db.dates.map DateRow.id).Nodup ∧
  (db.dates.map DateRow.draw_date).Nodup ∧
  (∀ r ∈ db.draws, ∃ d ∈ db.dates, d.id = r.date_id) ∧
  (db.draws.map DrawRow.date_id).Nodup

instance : DecidablePred WF := fun db => by
  unfold WF; infer_instance

/-- Store states reachable from a fresh database by `add_draw` calls. -/
inductive Reachable : DB → Prop where
  | init : Reachable create_database
  | step (db : DB) (dd : String) (f : Int) (s : Option Int)
      (mains : List Int) (pb : Int) :
      Reachable db → Reachable (add_draw db dd f s mains pb).1

/-- The five main-number columns of a `draws` row, in column order. -/
def rowMains (r : DrawRow) : List Int :=
  [r.main_num1, r.main_num2, r.main_num3, r.main_num4, r.main_num5]

/-- Store state after one successful `add_draw` for `2024-06-19` with
the target numbers (used to exhibit concrete behaviours). -/
def sampleDB1 : DB :=
  (add_draw create_database "2024-06-19" 0 (some 1) [2, 18, 35, 41, 46] 1).1

/-- Store state after one successful `add_draw` whose ledger row holds
sequence number 5 (used to exhibit sequence-number collisions). -/
def oneDrawDB : DB :=
  (add_draw create_database "2020-01-01" 0 (some 5) [1, 2, 3, 4, 5] 1).1

/-- Store state after three successful `add_draw` calls with sequence
numbers 5, 3 and 9. -/
def seqDB : DB :=
  (add_draw (add_draw (add_draw create_database "2020-01-01" 0 (some 5)
    [1, 2, 3, 4, 5] 6).1 "2020-01-08" 0 (some 3) [6, 7, 8, 9, 10] 7).1
    "2020-01-15" 0 (some 9) [11, 12, 13, 14, 15] 8).1

/-! ### Helper lemmas about the embedded operations -/

theorem ensure_date_fst (db : DB) (dd : String) (f : Int) (s : Option Int) :
    (ensure_date db dd f s).1 =
      if datesConflict db dd s then db else insertDateRow db dd f s := rfl

theorem ensure_date_snd (db : DB) (dd : String) (f : Int) (s : Option Int) :
    (ensure_date db dd f s).2 =
      ((ensure_date db dd f s).1.dates.find? fun r =>
        decide (r.draw_date = dd)).map DateRow.id := rfl

theorem ensure_date_fst_draws (db : DB) (dd : String) (f : Int) (s : Option Int) :
    (ensure_date db dd f s).1.draws = db.draws := by
  rw [ensure_date_fst]; split <;> rfl

theorem ensure_date_fst_dates (db : DB) (dd : String) (f : Int) (s : Option Int) :
    (ensure_date db dd f s).1.dates = db.dates ∨
      (ensure_date db dd f s).1.dates =
        db.dates ++
          [{ id := db.nextDateId, draw_date := dd,
             is_powerball_plus := f, draw_sequence_num := s }] := by
  rw [ensure_date_fst]; split
  · exact Or.inl rfl
  · exact Or.inr rfl

theorem datesConflict_of_mem {db : DB} {dd : String} (s : Option Int)
    {d : DateRow} (hd : d ∈ db.dates) (hdate : d.draw_date = dd) :
    datesConflict db dd s = true := by
  unfold datesConflict
  rw [List.any_eq_true]
  exact ⟨d, hd, by simp [hdate]⟩

/-- When some row of `dates` carries the calendar date `dd` and dates are
unique, `ensure_date` inserts nothing and returns that row's id. -/
theorem ensure_date_of_exists {db : DB} {dd : String} {d : DateRow}
    (hnd : (db.dates.map DateRow.draw_date).Nodup)
    (hd : d ∈ db.dates) (hdate : d.draw_date = dd) (f : Int) (s : Option Int) :
    ensure_date db dd f s = (db, some d.id) := by
  have hc : datesConflict db dd s = true := datesConflict_of_mem s hd hdate
  have h1 : (ensure_date db dd f s).1 = db := by rw [ensure_date_fst, hc]; rfl
  have hfind : (db.dates.find? fun r => decide (r.draw_date = dd)) = some d := by
    have hsome : (db.dates.find? fun r => decide (r.draw_date = dd)).isSome := by
      rw [List.find?_isSome]
      exact ⟨d, hd, by simp [hdate]⟩
    obtain ⟨d', hd'⟩ := Option.isSome_iff_exists.mp hsome
    have hmem : d' ∈ db.dates := List.mem_of_find?_eq_some hd'
    have hprop : d'.draw_date = dd := by
      have := List.find?_some hd'
      simpa using this
    have : d' = d :=
      List.inj_on_of_nodup_map hnd hmem hd (by rw [hprop, hdate])
    rw [hd', this]
  have h2 : (ensure_date db dd f s).2 = some d.id := by
    rw [ensure_date_snd, h1, hfind]; rfl
  exact Prod.ext h1 h2

/-- When neither the calendar date nor the sequence number collides,
`ensure_date` inserts a fresh row and returns the new id. -/
theorem ensure_date_fresh {db : DB} {dd : String}
    (hfresh : ∀ r ∈ db.dates, r.draw_date ≠ dd) {s : Option Int}
    (hseq : ∀ r ∈ db.dates, seqCollides s r = false) (f : Int) :
    ensure_date db dd f s = (insertDateRow db dd f s, some db.nextDateId) := by
  have hc : datesConflict db dd s = false := by
    unfold datesConflict
    rw [List.any_eq_false]
    intro r hr
    simp [hfresh r hr, hseq r hr]
  have h1 : (ensure_date db dd f s).1 = insertDateRow db dd f s := by
    rw [ensure_date_fst, hc]; rfl
  have hnone : (db.dates.find? fun r => decide (r.draw_date = dd)) = none := by
    rw [List.find?_eq_none]
    intro r hr
    simp [hfresh r hr]
  have h2 : (ensure_date db dd f s).2 = some db.nextDateId := by
    rw [ensure_date_snd, h1]
    show (((db.dates ++ [_]).find? _).map DateRow.id) = _
    rw [List.find?_append, hnone]
    simp
  exact Prod.ext h1 h2

/-- When the calendar date is new but the sequence number collides with
an existing row, `INSERT OR IGNORE` drops the row and the id lookup
comes back empty. -/
theorem ensure_date_collision {db : DB} {dd : String}
    (hfresh : ∀ r ∈ db.dates, r.draw_date ≠ dd) {s : Option Int} {d : DateRow}
    (hd : d ∈ db.dates) (hcol : seqCollides s d = true) (f : Int) :
    ensure_date db dd f s = (db, none) := by
  have hc : datesConflict db dd s = true := by
    unfold datesConflict
    rw [List.any_eq_true]
    exact ⟨d, hd, by simp [hcol]⟩
  have h1 : (ensure_date db dd f s).1 = db := by rw [ensure_date_fst, hc]; rfl
  have h2 : (ensure_date db dd f s).2 = none := by
    rw [ensure_date_snd, h1]
    have : (db.dates.find? fun r => decide (r.draw_date = dd)) = none := by
      rw [List.find?_eq_none]
      intro r hr
      simp [hfresh r hr]
    rw [this]; rfl
  exact Prod.ext h1 h2

theorem firstFive_of_length_five {l : List Int} (h : l.length = 5) :
    ∃ a b c d e, l = [a, b, c, d, e] ∧ firstFive l = some (a, b, c, d, e) := by
  rcases l with _ | ⟨a, _ | ⟨b, _ | ⟨c, _ | ⟨d, _ | ⟨e, _ | ⟨x, t⟩⟩⟩⟩⟩⟩
  all_goals simp_all [firstFive]

theorem firstFive_eq_none {l : List Int} (h : l.length < 5) :
    firstFive l = none := by
  rcases l with _ | ⟨a, _ | ⟨b, _ | ⟨c, _ | ⟨d, _ | ⟨e, t⟩⟩⟩⟩⟩
  · rfl
  · rfl
  · rfl
  · rfl
  · rfl
  · simp only [List.length_cons] at h; omega

theorem addDrawBody_eq_typeError {db : DB} {dd : String} {f : Int}
    {s : Option Int} (mains : List Int) (pb : Int)
    (h : (ensure_date db dd f s).2 = none) :
    addDrawBody db dd f s mains pb =
      .error (.typeError "NoneType object is not subscriptable",
        (ensure_date db dd f s).1) := by
  unfold addDrawBody
  rw [h]

theorem addDrawBody_eq_step {db : DB} {dd : String} {f : Int}
    {s : Option Int} {date_id : Nat} (mains : List Int) (pb : Int)
    (h : (ensure_date db dd f s).2 = some date_id) :
    addDrawBody db dd f s mains pb =
      drawInsertStep (ensure_date db dd f s).1 date_id
        (firstFive (List.insertionSort (fun a b => a ≤ b) mains)) pb := by
  unfold addDrawBody
  rw [h]

theorem drawInsertStep_dup {db1 : DB} {date_id : Nat}
    {t : Int × Int × Int × Int × Int} (pb : Int)
    (h : hasDrawFor db1 date_id = true) :
    drawInsertStep db1 date_id (some t) pb =
      .error (.integrityError "UNIQUE constraint failed: draws.date_id", db1) := by
  unfold drawInsertStep
  rw [h]
  rfl

theorem drawInsertStep_new {db1 : DB} {date_id : Nat}
    {t : Int × Int × Int × Int × Int} (pb : Int)
    (h : hasDrawFor db1 date_id = false) :
    drawInsertStep db1 date_id (some t) pb =
      .ok (insertDrawRow db1 date_id t.1 t.2.1 t.2.2.1 t.2.2.2.1 t.2.2.2.2 pb) := by
  unfold drawInsertStep
  rw [h]
  rfl

/-- Every exception value carries the committed store, i.e. the store
as `ensure_date` left it. -/
theorem addDrawBody_error_db {db : DB} {dd : String} {f : Int} {s : Option Int}
    {mains : List Int} {pb : Int} {e : PyExc} {db1 : DB}
    (h : addDrawBody db dd f s mains pb = .error (e, db1)) :
    db1 = (ensure_date db dd f s).1 := by
  cases hdi : (ensure_date db dd f s).2 with
  | none =>
    rw [addDrawBody_eq_typeError mains pb hdi] at h
    simp only [Except.error.injEq, Prod.mk.injEq] at h
    exact h.2.symm
  | some date_id =>
    rw [addDrawBody_eq_step mains pb hdi] at h
    cases hff : firstFive (List.insertionSort (fun a b => a ≤ b) mains) with
    | none =>
      rw [hff] at h
      simp only [drawInsertStep, Except.error.injEq, Prod.mk.injEq] at h
      exact h.2.symm
    | some t =>
      rw [hff] at h
      cases hnd : hasDrawFor (ensure_date db dd f s).1 date_id with
      | true =>
        rw [drawInsertStep_dup pb hnd] at h
        simp only [Except.error.injEq, Prod.mk.injEq] at h
        exact h.2.symm
      | false =>
        rw [drawInsertStep_new pb hnd] at h
        cases h

/-- Characterization of the success path of the `try` block. -/
theorem addDrawBody_ok {db : DB} {dd : String} {f : Int} {s : Option Int}
    {mains : List Int} {pb : Int} {db2 : DB}
    (h : addDrawBody db dd f s mains pb = .ok db2) :
    ∃ date_id t,
      (ensure_date db dd f s).2 = some date_id ∧
      firstFive (List.insertionSort (fun a b => a ≤ b) mains) = some t ∧
      hasDrawFor (ensure_date db dd f s).1 date_id = false ∧
      db2 = insertDrawRow (ensure_date db dd f s).1 date_id
        t.1 t.2.1 t.2.2.1 t.2.2.2.1 t.2.2.2.2 pb := by
  cases hdi : (ensure_date db dd f s).2 with
  | none =>
    rw [addDrawBody_eq_typeError mains pb hdi] at h
    cases h
  | some date_id =>
    rw [addDrawBody_eq_step mains pb hdi] at h
    cases hff : firstFive (List.insertionSort (fun a b => a ≤ b) mains) with
    | none =>
      rw [hff] at h
      cases h
    | some t =>
      rw [hff] at h
      cases hnd : hasDrawFor (ensure_date db dd f s).1 date_id with
      | true =>
        rw [drawInsertStep_dup pb hnd] at h
        cases h
      | false =>
        rw [drawInsertStep_new pb hnd] at h
        simp only [Except.ok.injEq] at h
        exact ⟨date_id, t, rfl, rfl, hnd, h.symm⟩

theorem maxSeq_eq_none {l : List Int} : maxSeq l = none ↔ l = [] := by
  cases l with
  | nil => simp [maxSeq]
  | cons v vs => cases h : maxSeq vs <;> simp [maxSeq, h]

theorem maxSeq_le {l : List Int} {m : Int} (h : maxSeq l = some m) :
    ∀ x ∈ l, x ≤ m := by
  induction l generalizing m with
  | nil => simp [maxSeq] at h
  | cons v vs ih =>
    cases hvs : maxSeq vs with
    | none =>
      rw [maxSeq, hvs] at h
      obtain rfl : v = m := by injection h
      have : vs = [] := maxSeq_eq_none.mp hvs
      subst this
      simp
    | some k =>
      rw [maxSeq, hvs] at h
      obtain rfl : max v k = m := by injection h
      intro x hx
      rcases List.mem_cons.mp hx with rfl | hx
      · exact le_max_left _ _
      · exact le_trans (ih hvs x hx) (le_max_right _ _)

theorem maxSeq_mem {l : List Int} {m : Int} (h : maxSeq l = some m) : m ∈ l := by
  induction l generalizing m with
  | nil => simp [maxSeq] at h
  | cons v vs ih =>
    cases hvs : maxSeq vs with
    | none =>
      rw [maxSeq, hvs] at h
      obtain rfl : v = m := by injection h
      exact List.mem_cons_self _ _
    | some k =>
      rw [maxSeq, hvs] at h
      obtain rfl : max v k = m := by injection h
      rcases max_choice v k with hmax | hmax
      · rw [hmax]; exact List.mem_cons_self _ _
      · rw [hmax]; exact List.mem_cons_of_mem _ (ih hvs)

theorem maxSeq_isSome {l : List Int} (h : l ≠ []) : ∃ m, maxSeq l = some m := by
  cases hm : maxSeq l with
  | none => exact absurd (maxSeq_eq_none.mp hm) h
  | some m => exact ⟨m, rfl⟩

/-! ### Preservation of well-formedness -/

theorem wf_insertDateRow {db : DB} (h : WF db) {dd : String}
    (hdd : ∀ r ∈ db.dates, r.draw_date ≠ dd) (f : Int) (s : Option Int) :
    WF (insertDateRow db dd f s) := by
  obtain ⟨h1, h2, h3, h4, h5⟩ := h
  unfold insertDateRow WF
  refine ⟨?_, ?_, ?_, ?_, h5⟩
  · intro r hr
    rcases List.mem_append.mp hr with hr | hr
    · exact Nat.lt_succ_of_lt (h1 r hr)
    · simp only [List.mem_singleton] at hr
      subst hr
      exact Nat.lt_succ_self _
  · rw [List.map_append, List.nodup_append]
    refine ⟨h2, List.nodup_singleton _, ?_⟩
    intro x hx hx'
    simp only [List.map_cons, List.map_nil, List.mem_singleton] at hx'
    rcases List.mem_map.mp hx with ⟨r, hr, rfl⟩
    exact absurd hx' (Nat.ne_of_lt (h1 r hr))
  · rw [List.map_append, List.nodup_append]
    refine ⟨h3, List.nodup_singleton _, ?_⟩
    intro x hx hx'
    simp only [List.map_cons, List.map_nil, List.mem_singleton] at hx'
    rcases List.mem_map.mp hx with ⟨r, hr, rfl⟩
    exact absurd hx' (hdd r hr)
  · intro r hr
    obtain ⟨d, hd, hid⟩ := h4 r hr
    exact ⟨d, List.mem_append_left _ hd, hid⟩

theorem wf_ensure_date {db : DB} (h : WF db) (dd : String) (f : Int)
    (s : Option Int) : WF (ensure_date db dd f s).1 := by
  rw [ensure_date_fst]
  cases hc : datesConflict db dd s with
  | true => simpa using h
  | false =>
    have hdd : ∀ r ∈ db.dates, r.draw_date ≠ dd := by
      unfold datesConflict at hc
      rw [List.any_eq_false] at hc
      intro r hr heq
      have := hc r hr
      simp [heq] at this
    simpa using wf_insertDateRow h hdd f s

theorem wf_insertDrawRow {db : DB} (h : WF db) {date_id : Nat}
    (hex : ∃ d ∈ db.dates, d.id = date_id)
    (hno : hasDrawFor db date_id = false) (m1 m2 m3 m4 m5 pb : Int) :
    WF (insertDrawRow db date_id m1 m2 m3 m4 m5 pb) := by
  obtain ⟨h1, h2, h3, h4, h5⟩ := h
  unfold insertDrawRow WF
  refine ⟨h1, h2, h3, ?_, ?_⟩
  · intro r hr
    rcases List.mem_append.mp hr with hr | hr
    · exact h4 r hr
    · simp only [List.mem_singleton] at hr
      subst hr
      exact hex
  · rw [List.map_append, List.nodup_append]
    refine ⟨h5, List.nodup_singleton _, ?_⟩
    intro x hx hx'
    simp only [List.map_cons, List.map_nil, List.mem_singleton] at hx'
    rcases List.mem_map.mp hx with ⟨r, hr, rfl⟩
    unfold hasDrawFor at hno
    rw [List.any_eq_false] at hno
    have := hno r hr
    simp only [decide_eq_true_eq] at this
    exact this hx'

/-- The id returned by `ensure_date` is the id of a row present in the
store `ensure_date` leaves behind. -/
theorem ensure_date_some_mem {db : DB} {dd : String} {f : Int} {s : Option Int}
    {i : Nat} (h : (ensure_date db dd f s).2 = some i) :
    ∃ d ∈ (ensure_date db dd f s).1.dates, d.id = i ∧ d.draw_date = dd := by
  rw [ensure_date_snd] at h
  rcases Option.map_eq_some'.mp h with ⟨d, hd, hid⟩
  refine ⟨d, List.mem_of_find?_eq_some hd, hid, ?_⟩
  have := List.find?_some hd
  simpa using this

/-- `add_draw` preserves well-formedness of the store. -/
theorem wf_add_draw {db : DB} (h : WF db) (dd : String) (f : Int)
    (s : Option Int) (mains : List Int) (pb : Int) :
    WF (add_draw db dd f s mains pb).1 := by
  unfold add_draw
  cases hbody : addDrawBody db dd f s mains pb with
  | error p =>
    obtain ⟨e, db1⟩ := p
    have := addDrawBody_error_db hbody
    subst this
    simpa using wf_ensure_date h dd f s
  | ok db2 =>
    obtain ⟨date_id, t, hdi, _, hno, hdb2⟩ := addDrawBody_ok hbody
    subst hdb2
    have hwf1 : WF (ensure_date db dd f s).1 := wf_ensure_date h dd f s
    obtain ⟨d, hd, hid, _⟩ := ensure_date_some_mem hdi
    simpa using wf_insertDrawRow hwf1 ⟨d, hd, hid⟩ hno t.1 t.2.1 t.2.2.1
      t.2.2.2.1 t.2.2.2.2 pb

theorem wf_create_database : WF create_database := by decide

theorem handleExc_ne_success (e : PyExc) : handleExc e ≠ .success := by
  cases e with
  | integrityError c =>
    by_cases hc : c = "UNIQUE constraint failed: draws.date_id" <;>
      simp [handleExc, hc]
  | typeError m => simp [handleExc]
  | indexError m => simp [handleExc]

theorem add_draw_of_body_ok {db : DB} {dd : String} {f : Int} {s : Option Int}
    {mains : List Int} {pb : Int} {db2 : DB}
    (h : addDrawBody db dd f s mains pb = .ok db2) :
    add_draw db dd f s mains pb = (db2, .success) := by
  unfold add_draw
  rw [h]

theorem add_draw_of_body_error {db : DB} {dd : String} {f : Int} {s : Option Int}
    {mains : List Int} {pb : Int} {e : PyExc} {db1 : DB}
    (h : addDrawBody db dd f s mains pb = .error (e, db1)) :
    add_draw db dd f s mains pb = (db1, handleExc e) := by
  unfold add_draw
  rw [h]

/-! ### The claims -/

/-- C7: `ensure_date` is idempotent on the calendar date: once a call
has returned an identity for a date, a second call for the same date
with any flag/sequence arguments returns the same identity, changes
nothing (in particular creates no second ledger row), and is not an
error; across the two calls at most one ledger row is created. -/
theorem ensure_date_idempotent (db db1 : DB) (dd : String) (f1 f2 : Int)
    (s1 s2 : Option Int) (i : Nat)
    (h : ensure_date db dd f1 s1 = (db1, some i)) :
    ensure_date db1 dd f2 s2 = (db1, some i) ∧
      db1.dates.length ≤ db.dates.length + 1 := by
  have hfst : (ensure_date db dd f1 s1).1 = db1 := by rw [h]
  have hsnd : (ensure_date db dd f1 s1).2 = some i := by rw [h]
  obtain ⟨d, hd, hdi, hdd⟩ := ensure_date_some_mem hsnd
  rw [hfst] at hd
  constructor
  · have hc : datesConflict db1 dd s2 = true := datesConflict_of_mem s2 hd hdd
    have h1 : (ensure_date db1 dd f2 s2).1 = db1 := by rw [ensure_date_fst, hc]; rfl
    have h2 : (ensure_date db1 dd f2 s2).2 = some i := by
      rw [ensure_date_snd, h1]
      have hre := ensure_date_snd db dd f1 s1
      rw [hfst] at hre
      rw [← hre, hsnd]
    exact Prod.ext h1 h2
  · rcases ensure_date_fst_dates db dd f1 s1 with hcase | hcase <;>
      rw [hfst] at hcase <;> rw [hcase]
    · omega
    · simp

theorem ensure_date_idempotent_witness :
    ensure_date (ensure_date create_database "2024-06-19" 0 (some 1)).1
        "2024-06-19" 7 none =
      ((ensure_date create_database "2024-06-19" 0 (some 1)).1, some 1) ∧
    (ensure_date create_database "2024-06-19" 0 (some 1)).1.dates.length ≤
      create_database.dates.length + 1 :=
  ensure_date_idempotent create_database
    (ensure_date create_database "2024-06-19" 0 (some 1)).1
    "2024-06-19" 0 7 (some 1) none 1 (by decide)

/-- C9: `get_max_draw_sequence_num` returns 0 on an empty ledger, is an
upper bound for every sequence number present in the ledger, is itself
a sequence number present in the ledger whenever some row has a
non-null one, and returns 9 after inserting rows with sequence numbers
5, 3 and 9. -/
theorem max_sequence_number_spec :
    get_max_draw_sequence_num create_database = 0 ∧
    (∀ db : DB, ∀ r ∈ db.dates, ∀ n : Int, r.draw_sequence_num = some n →
      n ≤ get_max_draw_sequence_num db) ∧
    (∀ db : DB, (∃ r ∈ db.dates, r.draw_sequence_num ≠ none) →
      ∃ r ∈ db.dates, r.draw_sequence_num = some (get_max_draw_sequence_num db)) ∧
    get_max_draw_sequence_num seqDB = 9 := by
  refine ⟨by decide, ?_, ?_, by decide⟩
  · intro db r hr n hn
    have hmem : n ∈ db.dates.filterMap DateRow.draw_sequence_num :=
      List.mem_filterMap.mpr ⟨r, hr, hn⟩
    have hne : db.dates.filterMap DateRow.draw_sequence_num ≠ [] :=
      List.ne_nil_of_mem hmem
    obtain ⟨m, hm⟩ := maxSeq_isSome hne
    have : get_max_draw_sequence_num db = m := by
      unfold get_max_draw_sequence_num
      rw [hm]
      rfl
    rw [this]
    exact maxSeq_le hm n hmem
  · intro db hex
    obtain ⟨r, hr, hrn⟩ := hex
    obtain ⟨k, hk⟩ := Option.ne_none_iff_exists.mp hrn
    have hmem : k ∈ db.dates.filterMap DateRow.draw_sequence_num :=
      List.mem_filterMap.mpr ⟨r, hr, hk.symm⟩
    have hne : db.dates.filterMap DateRow.draw_sequence_num ≠ [] :=
      List.ne_nil_of_mem hmem
    obtain ⟨m, hm⟩ := maxSeq_isSome hne
    have hval : get_max_draw_sequence_num db = m := by
      unfold get_max_draw_sequence_num
      rw [hm]
      rfl
    obtain ⟨r2, hr2, hr2m⟩ := List.mem_filterMap.mp (maxSeq_mem hm)
    exact ⟨r2, hr2, by rw [hval, hr2m]⟩

theorem max_sequence_number_spec_witness :
    (5 : Int) ≤ get_max_draw_sequence_num seqDB :=
  max_sequence_number_spec.2.1 seqDB
    { id := 1, draw_date := "2020-01-01", is_powerball_plus := 0,
      draw_sequence_num := some 5 } (by decide) 5 (by decide)

/-- C2: when a result row already exists for a date in a well-formed
store, a further `add_draw` call for that date (with a list of exactly
5 main numbers) is a no-op reported as skipped — not an error, not an
overwrite — and the total draw count is unchanged. -/
theorem add_draw_duplicate_date_skipped (db : DB) (dd : String) (f : Int)
    (s : Option Int) (mains : List Int) (pb : Int) (hwf : WF db)
    (hex : ∃ d ∈ db.dates, d.draw_date = dd ∧ ∃ r ∈ db.draws, r.date_id = d.id)
    (h5 : mains.length = 5) :
    add_draw db dd f s mains pb = (db, .skipped) ∧
      get_total_draws_in_db (add_draw db dd f s mains pb).1 =
        get_total_draws_in_db db := by
  obtain ⟨d, hd, hdd, r, hr, hrid⟩ := hex
  have hens : ensure_date db dd f s = (db, some d.id) :=
    ensure_date_of_exists hwf.2.2.1 hd hdd f s
  have hens1 : (ensure_date db dd f s).1 = db := by rw [hens]
  have hens2 : (ensure_date db dd f s).2 = some d.id := by rw [hens]
  have hlen : (List.insertionSort (fun a b => a ≤ b) mains).length = 5 := by
    rw [List.length_insertionSort]
    exact h5
  obtain ⟨a1, a2, a3, a4, a5, -, hff⟩ := firstFive_of_length_five hlen
  have hdup : hasDrawFor db d.id = true := by
    unfold hasDrawFor
    rw [List.any_eq_true]
    exact ⟨r, hr, by simp [hrid]⟩
  have hbody : addDrawBody db dd f s mains pb =
      .error (.integrityError "UNIQUE constraint failed: draws.date_id", db) := by
    rw [addDrawBody_eq_step mains pb hens2, hens1, hff, drawInsertStep_dup pb hdup]
  have hadd : add_draw db dd f s mains pb =
      (db, handleExc (.integrityError "UNIQUE constraint failed: draws.date_id")) :=
    add_draw_of_body_error hbody
  have hskip : handleExc
      (.integrityError "UNIQUE constraint failed: draws.date_id") = .skipped := by
    decide
  rw [hadd, hskip]
  exact ⟨rfl, rfl⟩

theorem add_draw_duplicate_date_skipped_witness :
    add_draw sampleDB1 "2024-06-19" 1 (some 2) [5, 4, 3, 2, 1] 9 =
      (sampleDB1, .skipped) :=
  (add_draw_duplicate_date_skipped sampleDB1 "2024-06-19" 1 (some 2)
    [5, 4, 3, 2, 1] 9 (by decide) (by decide) (by decide)).1

/-- Whenever `add_draw` reports success, exactly one `draws` row was
appended, carrying the first five entries of the sorted input list and
the given powerball number. -/
theorem add_draw_success_shape {db : DB} {dd : String} {f : Int} {s : Option Int}
    {mains : List Int} {pb : Int}
    (h : (add_draw db dd f s mains pb).2 = .success) :
    ∃ t, firstFive (List.insertionSort (fun a b => a ≤ b) mains) = some t ∧
      ∃ row : DrawRow, (add_draw db dd f s mains pb).1.draws = db.draws ++ [row] ∧
        rowMains row = [t.1, t.2.1, t.2.2.1, t.2.2.2.1, t.2.2.2.2] ∧
        row.powerball_num = pb := by
  cases hbody : addDrawBody db dd f s mains pb with
  | error p =>
    obtain ⟨e, db1⟩ := p
    have heq := add_draw_of_body_error hbody
    rw [heq] at h
    exact absurd h (handleExc_ne_success e)
  | ok db2 =>
    obtain ⟨date_id, t, hdi, hff, hnodup, hdb2⟩ := addDrawBody_ok hbody
    have hadd : add_draw db dd f s mains pb = (db2, .success) :=
      add_draw_of_body_ok hbody
    refine ⟨t, hff,
      { id := (ensure_date db dd f s).1.nextDrawId, date_id := date_id,
        main_num1 := t.1, main_num2 := t.2.1, main_num3 := t.2.2.1,
        main_num4 := t.2.2.2.1, main_num5 := t.2.2.2.2, powerball_num := pb },
      ?_, rfl, rfl⟩
    rw [hadd]
    show db2.draws = db.draws ++ [_]
    rw [hdb2]
    show (ensure_date db dd f s).1.draws ++ [_] = db.draws ++ [_]
    rw [ensure_date_fst_draws]

/-- C3: for a list of 5 distinct main numbers, every permutation of it
makes `add_draw` produce the identical store and outcome (hence all
`count_exact_match` results are independent of the input order), and on
success the persisted row carries the five numbers sorted ascending. -/
theorem add_draw_perm_invariant (db : DB) (dd : String) (f : Int) (s : Option Int)
    (pb : Int) (l l2 : List Int) (hperm : l.Perm l2) (h5 : l.length = 5)
    (_hnd : l.Nodup) :
    add_draw db dd f s l pb = add_draw db dd f s l2 pb ∧
    ((add_draw db dd f s l pb).2 = .success →
      ∃ row : DrawRow, (add_draw db dd f s l pb).1.draws = db.draws ++ [row] ∧
        (rowMains row).Perm l ∧ List.Sorted (· ≤ ·) (rowMains row)) := by
  have hsort : List.insertionSort (fun a b => a ≤ b) l =
      List.insertionSort (fun a b => a ≤ b) l2 :=
    List.eq_of_perm_of_sorted
      ((List.perm_insertionSort _ l).trans
        (hperm.trans (List.perm_insertionSort _ l2).symm))
      (List.sorted_insertionSort _ l) (List.sorted_insertionSort _ l2)
  constructor
  · unfold add_draw addDrawBody
    rw [hsort]
  · intro hsucc
    obtain ⟨t, hff, row, hdraws, hmains, -⟩ := add_draw_success_shape hsucc
    have hlen : (List.insertionSort (fun a b => a ≤ b) l).length = 5 := by
      rw [List.length_insertionSort]
      exact h5
    obtain ⟨b1, b2, b3, b4, b5, hL, hff2⟩ := firstFive_of_length_five hlen
    have ht : t = (b1, b2, b3, b4, b5) := by
      have := hff.symm.trans hff2
      injection this
    subst ht
    have hmains2 : rowMains row = List.insertionSort (fun a b => a ≤ b) l := by
      rw [hmains]
      exact hL.symm
    refine ⟨row, hdraws, ?_, ?_⟩
    · rw [hmains2]
      exact List.perm_insertionSort _ l
    · rw [hmains2]
      exact List.sorted_insertionSort _ l

theorem add_draw_perm_invariant_witness :
    add_draw create_database "2024-06-19" 0 (some 1) [2, 18, 35, 41, 46] 1 =
      add_draw create_database "2024-06-19" 0 (some 1) [46, 2, 35, 18, 41] 1 :=
  (add_draw_perm_invariant create_database "2024-06-19" 0 (some 1) 1
    [2, 18, 35, 41, 46] [46, 2, 35, 18, 41] (by decide) (by decide) (by decide)).1

/-- An `IntegrityError` escaping the `try` block can only be the
`UNIQUE(draws.date_id)` violation, raised when the looked-up date
already has a result row. -/
theorem addDrawBody_integrityError {db : DB} {dd : String} {f : Int}
    {s : Option Int} {mains : List Int} {pb : Int} {c : String} {db1 : DB}
    (h : addDrawBody db dd f s mains pb = .error (.integrityError c, db1)) :
    c = "UNIQUE constraint failed: draws.date_id" ∧
    ∃ date_id, (ensure_date db dd f s).2 = some date_id ∧
      hasDrawFor (ensure_date db dd f s).1 date_id = true := by
  cases hdi : (ensure_date db dd f s).2 with
  | none =>
    rw [addDrawBody_eq_typeError mains pb hdi] at h
    simp at h
  | some date_id =>
    rw [addDrawBody_eq_step mains pb hdi] at h
    cases hff : firstFive (List.insertionSort (fun a b => a ≤ b) mains) with
    | none =>
      rw [hff] at h
      simp [drawInsertStep] at h
    | some t =>
      rw [hff] at h
      cases hdup : hasDrawFor (ensure_date db dd f s).1 date_id with
      | true =>
        rw [drawInsertStep_dup pb hdup] at h
        simp only [Except.error.injEq, Prod.mk.injEq,
          PyExc.integrityError.injEq] at h
        exact ⟨h.1.symm, date_id, rfl, hdup⟩
      | false =>
        rw [drawInsertStep_new pb hdup] at h
        cases h

/-- C5: on a well-formed store, `add_draw` always reports exactly one
of success, skipped or failed: success comes with one newly appended
result row; skipped happens exactly when a result row already existed
for the date and leaves the result table unchanged; every other path
reports failed with its reason and leaves the result table unchanged. -/
theorem add_draw_outcome_trichotomy (db : DB) (dd : String) (f : Int)
    (s : Option Int) (mains : List Int) (pb : Int) (hwf : WF db) :
    ((add_draw db dd f s mains pb).2 = .success ∧
      ∃ row : DrawRow, (add_draw db dd f s mains pb).1.draws = db.draws ++ [row]) ∨
    ((add_draw db dd f s mains pb).2 = .skipped ∧
      (∃ d ∈ db.dates, d.draw_date = dd ∧ ∃ r ∈ db.draws, r.date_id = d.id) ∧
      (add_draw db dd f s mains pb).1.draws = db.draws) ∨
    (∃ b m, (add_draw db dd f s mains pb).2 = .failed b m ∧
      (add_draw db dd f s mains pb).1.draws = db.draws) := by
  cases hbody : addDrawBody db dd f s mains pb with
  | ok db2 =>
    left
    have hadd := add_draw_of_body_ok hbody
    obtain ⟨date_id, t, hdi, hff, hnodup, hdb2⟩ := addDrawBody_ok hbody
    constructor
    · rw [hadd]
    · refine ⟨{ id := (ensure_date db dd f s).1.nextDrawId, date_id := date_id,
                main_num1 := t.1, main_num2 := t.2.1, main_num3 := t.2.2.1,
                main_num4 := t.2.2.2.1, main_num5 := t.2.2.2.2,
                powerball_num := pb }, ?_⟩
      rw [hadd]
      show db2.draws = db.draws ++ [_]
      rw [hdb2]
      show (ensure_date db dd f s).1.draws ++ [_] = db.draws ++ [_]
      rw [ensure_date_fst_draws]
  | error p =>
    obtain ⟨e, db1⟩ := p
    have hadd := add_draw_of_body_error hbody
    have hdb1 : db1 = (ensure_date db dd f s).1 := addDrawBody_error_db hbody
    have hdraws : (add_draw db dd f s mains pb).1.draws = db.draws := by
      rw [hadd]
      show db1.draws = db.draws
      rw [hdb1, ensure_date_fst_draws]
    cases e with
    | typeError m =>
      right; right
      exact ⟨false, m, by rw [hadd]; rfl, hdraws⟩
    | indexError m =>
      right; right
      exact ⟨false, m, by rw [hadd]; rfl, hdraws⟩
    | integrityError c =>
      obtain ⟨hc, date_id, hdi, hdup⟩ := addDrawBody_integrityError hbody
      subst hc
      right; left
      refine ⟨?_, ?_, hdraws⟩
      · rw [hadd]
        show handleExc (PyExc.integrityError
          "UNIQUE constraint failed: draws.date_id") = AddDrawResult.skipped
        decide
      · obtain ⟨d, hd, hdidd, hdd⟩ := ensure_date_some_mem hdi
        unfold hasDrawFor at hdup
        rw [List.any_eq_true] at hdup
        obtain ⟨r, hr, hrdec⟩ := hdup
        rw [ensure_date_fst_draws] at hr
        simp only [decide_eq_true_eq] at hrdec
        rcases ensure_date_fst_dates db dd f s with hds | hds
        · rw [hds] at hd
          exact ⟨d, hd, hdd, r, hr, by rw [hrdec, hdidd]⟩
        · rw [hds] at hd
          rcases List.mem_append.mp hd with hd2 | hd2
          · exact ⟨d, hd2, hdd, r, hr, by rw [hrdec, hdidd]⟩
          · exfalso
            simp only [List.mem_singleton] at hd2
            obtain ⟨d2, hd2m, hd2id⟩ := hwf.2.2.2.1 r hr
            have hlt : d2.id < db.nextDateId := hwf.1 d2 hd2m
            have h4 : d.id = db.nextDateId := by rw [hd2]
            omega

theorem add_draw_outcome_trichotomy_witness :
    (add_draw create_database "2024-06-19" 0 (some 1) [2, 18, 35, 41, 46] 1).2 =
      .success := by
  rcases add_draw_outcome_trichotomy create_database "2024-06-19" 0 (some 1)
      [2, 18, 35, 41, 46] 1 (by decide) with ⟨h, -⟩ | ⟨h, -, -⟩ | ⟨b, m, h, -⟩
  · exact h
  · exact absurd h (by decide)
  · have hs : (add_draw create_database "2024-06-19" 0 (some 1)
        [2, 18, 35, 41, 46] 1).2 = .success := by decide
    rw [hs] at h
    cases h

/-- C1 counterexample: a failure after the ensure-date step (here the
`IndexError` raised by a 4-element main-number list) leaves the
committed ledger insert behind, so the persisted store is not the store
from before the call. -/
theorem add_draw_failure_mutates_store :
    (add_draw create_database "2024-06-19" 0 (some 1) [1, 2, 3, 4] 1).2 =
      .failed false "list index out of range" ∧
    (add_draw create_database "2024-06-19" 0 (some 1) [1, 2, 3, 4] 1).1 ≠
      create_database := by
  decide

/-- C1 (amended): on any non-success outcome the `draws` table is
exactly as before the call — no partial `DrawResult` row is ever left
behind — but the `dates` table may keep one new ledger row for the
requested date, already committed by the ensure-date step. -/
theorem add_draw_failure_rollback (db : DB) (dd : String) (f : Int)
    (s : Option Int) (mains : List Int) (pb : Int)
    (h : (add_draw db dd f s mains pb).2 ≠ .success) :
    (add_draw db dd f s mains pb).1.draws = db.draws ∧
    ((add_draw db dd f s mains pb).1.dates = db.dates ∨
      ∃ nd : DateRow, nd.draw_date = dd ∧
        (add_draw db dd f s mains pb).1.dates = db.dates ++ [nd]) := by
  cases hbody : addDrawBody db dd f s mains pb with
  | ok db2 =>
    have hs : (add_draw db dd f s mains pb).2 = .success := by
      rw [add_draw_of_body_ok hbody]
    exact absurd hs h
  | error p =>
    obtain ⟨e, db1⟩ := p
    have hadd := add_draw_of_body_error hbody
    have hdb1 : db1 = (ensure_date db dd f s).1 := addDrawBody_error_db hbody
    constructor
    · rw [hadd]
      show db1.draws = db.draws
      rw [hdb1, ensure_date_fst_draws]
    · rcases ensure_date_fst_dates db dd f s with hds | hds
      · left
        rw [hadd]
        show db1.dates = db.dates
        rw [hdb1, hds]
      · right
        refine ⟨{ id := db.nextDateId, draw_date := dd, is_powerball_plus := f,
                  draw_sequence_num := s }, rfl, ?_⟩
        rw [hadd]
        show db1.dates = db.dates ++ [_]
        rw [hdb1, hds]

theorem add_draw_failure_rollback_witness :
    (add_draw create_database "2024-06-19" 0 (some 1) [1, 2, 3, 4] 1).1.draws =
      create_database.draws :=
  (add_draw_failure_rollback create_database "2024-06-19" 0 (some 1) [1, 2, 3, 4] 1
    (by decide)).1

/-- Appending one result row changes a count by the match status of the
new row. -/
theorem count_exact_match_insert {db2 db : DB} {row : DrawRow}
    (hdraws : db2.draws = db.draws ++ [row]) (t1 t2 t3 t4 t5 tpb : Int) :
    count_exact_match db2 t1 t2 t3 t4 t5 tpb =
      count_exact_match db t1 t2 t3 t4 t5 tpb +
        (if matchesTarget t1 t2 t3 t4 t5 tpb row then 1 else 0) := by
  unfold count_exact_match
  rw [hdraws, List.countP_append]
  congr 1
  simp [List.countP_cons]

/-- C4 counterexample: a store whose ledger carries sequence number 5
is reachable; an `add_draw` for the fresh date `2024-06-19` with 5
distinct in-range main numbers and an in-range bonus — the claim's
validity conditions — but the colliding sequence number 5 fails, and
`count_exact_match` for those numbers stays 0 instead of growing by 1. -/
theorem add_draw_count_not_incremented_on_seq_collision :
    "2024-06-19" ∉ oneDrawDB.dates.map DateRow.draw_date ∧
    ([2, 18, 35, 41, 46] : List Int).Nodup ∧
    count_exact_match (add_draw oneDrawDB "2024-06-19" 0 (some 5)
        [2, 18, 35, 41, 46] 1).1 2 18 35 41 46 1 = 0 ∧
    count_exact_match oneDrawDB 2 18 35 41 46 1 = 0 := by
  decide

/-- C4 (amended): for a fresh date, a sequence number that does not
collide with any ledger row (null never collides), exactly 5 distinct
main numbers in [1,50] and a bonus in [1,20], `add_draw` succeeds,
`count_exact_match` at the sorted inserted numbers and that bonus grows
by exactly 1, and the count for every other target is unchanged. -/
theorem add_draw_count_increment (db : DB) (dd : String) (f : Int)
    (s : Option Int) (mains : List Int) (pb : Int) (hwf : WF db)
    (hdate : ∀ r ∈ db.dates, r.draw_date ≠ dd)
    (hseq : ∀ r ∈ db.dates, seqCollides s r = false)
    (h5 : mains.length = 5) (_hnd : mains.Nodup)
    (_hrange : ∀ x ∈ mains, 1 ≤ x ∧ x ≤ 50) (_hpb : 1 ≤ pb ∧ pb ≤ 20) :
    (add_draw db dd f s mains pb).2 = .success ∧
    count_exact_match (add_draw db dd f s mains pb).1 (sorted_main mains 0)
        (sorted_main mains 1) (sorted_main mains 2) (sorted_main mains 3)
        (sorted_main mains 4) pb =
      count_exact_match db (sorted_main mains 0) (sorted_main mains 1)
        (sorted_main mains 2) (sorted_main mains 3) (sorted_main mains 4) pb + 1 ∧
    ∀ t1 t2 t3 t4 t5 tpb : Int,
      ([t1, t2, t3, t4, t5] ≠ [sorted_main mains 0, sorted_main mains 1,
        sorted_main mains 2, sorted_main mains 3, sorted_main mains 4] ∨
        tpb ≠ pb) →
      count_exact_match (add_draw db dd f s mains pb).1 t1 t2 t3 t4 t5 tpb =
        count_exact_match db t1 t2 t3 t4 t5 tpb := by
  have hens := ensure_date_fresh hdate hseq f
  have hens1 : (ensure_date db dd f s).1 = insertDateRow db dd f s := by rw [hens]
  have hens2 : (ensure_date db dd f s).2 = some db.nextDateId := by rw [hens]
  have hlen : (List.insertionSort (fun a b => a ≤ b) mains).length = 5 := by
    rw [List.length_insertionSort]
    exact h5
  obtain ⟨b1, b2, b3, b4, b5, hL, hff⟩ := firstFive_of_length_five hlen
  have hnodup : hasDrawFor (insertDateRow db dd f s) db.nextDateId = false := by
    unfold hasDrawFor
    rw [List.any_eq_false]
    intro r hr
    obtain ⟨d2, hd2, hd2id⟩ := hwf.2.2.2.1 r hr
    have hlt : d2.id < db.nextDateId := hwf.1 d2 hd2
    simp only [decide_eq_true_eq]
    omega
  have hbody : addDrawBody db dd f s mains pb =
      .ok (insertDrawRow (insertDateRow db dd f s) db.nextDateId
        b1 b2 b3 b4 b5 pb) := by
    rw [addDrawBody_eq_step mains pb hens2, hens1, hff, drawInsertStep_new pb hnodup]
  have hadd := add_draw_of_body_ok hbody
  have hdraws : (add_draw db dd f s mains pb).1.draws =
      db.draws ++ [{ id := (insertDateRow db dd f s).nextDrawId,
                     date_id := db.nextDateId, main_num1 := b1, main_num2 := b2,
                     main_num3 := b3, main_num4 := b4, main_num5 := b5,
                     powerball_num := pb }] := by
    rw [hadd]
    rfl
  have hsm0 : sorted_main mains 0 = b1 := by unfold sorted_main; rw [hL]; rfl
  have hsm1 : sorted_main mains 1 = b2 := by unfold sorted_main; rw [hL]; rfl
  have hsm2 : sorted_main mains 2 = b3 := by unfold sorted_main; rw [hL]; rfl
  have hsm3 : sorted_main mains 3 = b4 := by unfold sorted_main; rw [hL]; rfl
  have hsm4 : sorted_main mains 4 = b5 := by unfold sorted_main; rw [hL]; rfl
  refine ⟨by rw [hadd], ?_, ?_⟩
  · rw [count_exact_match_insert hdraws, hsm0, hsm1, hsm2, hsm3, hsm4]
    simp [matchesTarget]
  · intro t1 t2 t3 t4 t5 tpb hne
    rw [count_exact_match_insert hdraws]
    have hm : matchesTarget t1 t2 t3 t4 t5 tpb
        { id := (insertDateRow db dd f s).nextDrawId,
          date_id := db.nextDateId, main_num1 := b1, main_num2 := b2,
          main_num3 := b3, main_num4 := b4, main_num5 := b5,
          powerball_num := pb } = false := by
      cases hmt : matchesTarget t1 t2 t3 t4 t5 tpb
          { id := (insertDateRow db dd f s).nextDrawId,
            date_id := db.nextDateId, main_num1 := b1, main_num2 := b2,
            main_num3 := b3, main_num4 := b4, main_num5 := b5,
            powerball_num := pb } with
      | false => rfl
      | true =>
        exfalso
        simp only [matchesTarget, Bool.and_eq_true, decide_eq_true_eq] at hmt
        obtain ⟨⟨⟨⟨⟨e1, e2⟩, e3⟩, e4⟩, e5⟩, e6⟩ := hmt
        have f1 : b1 = t1 := e1
        have f2 : b2 = t2 := e2
        have f3 : b3 = t3 := e3
        have f4 : b4 = t4 := e4
        have f5 : b5 = t5 := e5
        have f6 : pb = tpb := e6
        rcases hne with hne | hne
        · exact hne (by rw [hsm0, hsm1, hsm2, hsm3, hsm4, f1, f2, f3, f4, f5])
        · exact hne f6.symm
    rw [hm]
    simp

theorem add_draw_count_increment_witness :
    count_exact_match (add_draw create_database "2024-06-19" 0 (some 999999999)
        [2, 18, 35, 41, 46] 1).1 (sorted_main [2, 18, 35, 41, 46] 0)
        (sorted_main [2, 18, 35, 41, 46] 1) (sorted_main [2, 18, 35, 41, 46] 2)
        (sorted_main [2, 18, 35, 41, 46] 3) (sorted_main [2, 18, 35, 41, 46] 4) 1 =
      count_exact_match create_database (sorted_main [2, 18, 35, 41, 46] 0)
        (sorted_main [2, 18, 35, 41, 46] 1) (sorted_main [2, 18, 35, 41, 46] 2)
        (sorted_main [2, 18, 35, 41, 46] 3) (sorted_main [2, 18, 35, 41, 46] 4)
        1 + 1 :=
  (add_draw_count_increment create_database "2024-06-19" 0 (some 999999999)
    [2, 18, 35, 41, 46] 1 (by decide) (by decide) (by decide) (by decide)
    (by decide) (by decide) (by decide)).2.1

/-- C6 counterexample: with a ledger row holding sequence number 5, an
`add_draw` for a new distinct date with that same sequence number is
reported through the catch-all clause with a `TypeError` message — not
as an integrity failure naming the collision — because `INSERT OR
IGNORE` silently drops the colliding insert and the id lookup then
finds no row; no ledger row is created. -/
theorem seq_collision_not_integrity_failure :
    (add_draw oneDrawDB "2021-01-01" 0 (some 5) [6, 7, 8, 9, 10] 2).2 =
      .failed false "NoneType object is not subscriptable" ∧
    (add_draw oneDrawDB "2021-01-01" 0 (some 5) [6, 7, 8, 9, 10] 2).1 =
      oneDrawDB := by
  decide

/-- C6 (amended): a sequence-number collision on a new, distinct date
does abort the operation and leaves the store unchanged, but it does
not surface as an integrity failure reporting the collision: the
colliding ledger insert is silently ignored, and the operation fails
with the generic `TypeError` of the empty id lookup, reported through
the catch-all handler. -/
theorem add_draw_seq_collision_generic_error (db : DB) (dd : String) (f : Int)
    (n : Int) (mains : List Int) (pb : Int)
    (hdate : ∀ r ∈ db.dates, r.draw_date ≠ dd)
    (hcol : ∃ r ∈ db.dates, r.draw_sequence_num = some n) :
    add_draw db dd f (some n) mains pb =
      (db, .failed false "NoneType object is not subscriptable") := by
  obtain ⟨r, hr, hrs⟩ := hcol
  have hens : ensure_date db dd f (some n) = (db, none) :=
    ensure_date_collision hdate hr (by simp [seqCollides, hrs]) f
  have h2 : (ensure_date db dd f (some n)).2 = none := by rw [hens]
  have h1 : (ensure_date db dd f (some n)).1 = db := by rw [hens]
  have hbody := addDrawBody_eq_typeError mains pb h2
  rw [h1] at hbody
  rw [add_draw_of_body_error hbody]
  rfl

theorem add_draw_seq_collision_generic_error_witness :
    add_draw oneDrawDB "2022-02-02" 0 (some 5) [2, 18, 35, 41, 46] 1 =
      (oneDrawDB, .failed false "NoneType object is not subscriptable") :=
  add_draw_seq_collision_generic_error oneDrawDB "2022-02-02" 0 5
    [2, 18, 35, 41, 46] 1 (by decide) (by decide)

/-- C8: every reachable store state satisfies referential integrity —
each result row references an existing ledger row — and the one-to-one
constraint — no two result rows share a ledger row; `create_database`
establishes the invariant and every `add_draw` call preserves it. -/
theorem reachable_referential_integrity (db : DB) (h : Reachable db) :
    (∀ r ∈ db.draws, ∃ d ∈ db.dates, d.id = r.date_id) ∧
      (db.draws.map DrawRow.date_id).Nodup := by
  have hwf : WF db := by
    induction h with
    | init => exact wf_create_database
    | step db2 dd f s mains pb _ ih => exact wf_add_draw ih dd f s mains pb
  exact ⟨hwf.2.2.2.1, hwf.2.2.2.2⟩

theorem reachable_referential_integrity_witness :
    ((add_draw create_database "2024-06-19" 0 (some 1)
      [2, 18, 35, 41, 46] 1).1.draws.map DrawRow.date_id).Nodup :=
  (reachable_referential_integrity _
    (Reachable.step create_database "2024-06-19" 0 (some 1) [2, 18, 35, 41, 46] 1
      Reachable.init)).2

/-- C10: `add_draw` never propagates an exception to its caller: every
run either succeeds, or raises one of the modelled exceptions, each of
which the `except` clauses map to a reported skip or failure outcome;
in particular a malformed main-number list (fewer than 5 entries)
yields a failure reported through the catch-all clause and leaves the
result table untouched. -/
theorem add_draw_no_uncaught_exception (db : DB) (dd : String) (f : Int)
    (s : Option Int) (mains : List Int) (pb : Int) :
    ((∃ db2, addDrawBody db dd f s mains pb = .ok db2 ∧
        add_draw db dd f s mains pb = (db2, .success)) ∨
      (∃ e db1, addDrawBody db dd f s mains pb = .error (e, db1) ∧
        add_draw db dd f s mains pb = (db1, handleExc e) ∧
        handleExc e ≠ .success)) ∧
    (mains.length < 5 →
      (add_draw db dd f s mains pb).1.draws = db.draws ∧
      ∃ m, (add_draw db dd f s mains pb).2 = .failed false m) := by
  constructor
  · cases hbody : addDrawBody db dd f s mains pb with
    | ok db2 => exact Or.inl ⟨db2, rfl, add_draw_of_body_ok hbody⟩
    | error p =>
      obtain ⟨e, db1⟩ := p
      exact Or.inr ⟨e, db1, rfl, add_draw_of_body_error hbody,
        handleExc_ne_success e⟩
  · intro hlen
    have hffnone : firstFive (List.insertionSort (fun a b => a ≤ b) mains) =
        none := by
      apply firstFive_eq_none
      rw [List.length_insertionSort]
      exact hlen
    cases hdi : (ensure_date db dd f s).2 with
    | none =>
      have hbody := addDrawBody_eq_typeError mains pb hdi
      have hadd := add_draw_of_body_error hbody
      constructor
      · rw [hadd]
        show (ensure_date db dd f s).1.draws = db.draws
        exact ensure_date_fst_draws db dd f s
      · exact ⟨_, by rw [hadd]; rfl⟩
    | some date_id =>
      have hbody : addDrawBody db dd f s mains pb =
          .error (.indexError "list index out of range",
            (ensure_date db dd f s).1) := by
        rw [addDrawBody_eq_step mains pb hdi, hffnone]
        rfl
      have hadd := add_draw_of_body_error hbody
      constructor
      · rw [hadd]
        show (ensure_date db dd f s).1.draws = db.draws
        exact ensure_date_fst_draws db dd f s
      · exact ⟨_, by rw [hadd]; rfl⟩

theorem add_draw_no_uncaught_exception_witness :
    (add_draw create_database "2024-06-19" 0 (some 1) [7, 3] 1).1.draws =
      create_database.draws :=
  ((add_draw_no_uncaught_exception create_database "2024-06-19" 0 (some 1)
    [7, 3] 1).2 (by decide)).1


